import Mathlib

/-!
Verification of the geometry-to-wall extraction pipeline of `geo2wall`
(`extract.py`).  The coordinate type is `ℚ`; geometries are a tagged variant
mirroring the shapely geometry kinds the code dispatches on
(`LineString`, `Polygon`, `MultiPolygon`, `Point`).  The trigonometric part of
rotation is represented by the pair (cos θ, sin θ) of the rotation angle, and
external library calls that can yield no value (`unary_union.centroid` of an
empty collection, column minima of an empty bounds table) are embedded as
`Option`.
-/

namespace Geo2Wall

/-- A 2D point. -/
abbrev Pt := ℚ × ℚ

/-- A wall segment `(x1, y1, x2, y2)`, as built by `transform_to_lines`. -/
abbrev Wall := ℚ × ℚ × ℚ × ℚ

/-- Geometry records, mirroring the shapely types the source dispatches on:
`LineString` (two endpoints, as read from dxf), `Polygon` (a non-empty ring,
head point plus the remaining points), `MultiPolygon` (a non-empty list of
rings), and `Point` (any other geometry kind handled by the generic
bounding-box branch). -/
inductive Geo where
  | line (p q : Pt)
  | area (p0 : Pt) (rest : List Pt)
  | multiArea (r0 : Pt × List Pt) (rest : List (Pt × List Pt))
  | point (p : Pt)
deriving DecidableEq, Repr

/-- An axis-aligned bounding box `(minx, miny, maxx, maxy)`, the 4-tuple
shapely's `geo.bounds` yields. -/
structure Bounds where
  minx : ℚ
  miny : ℚ
  maxx : ℚ
  maxy : ℚ
deriving DecidableEq, Repr

/-- Bounds of a single point: `(x, y, x, y)`. -/
def ptBounds (p : Pt) : Bounds := ⟨p.1, p.2, p.1, p.2⟩

/-- Union of two bounding boxes. -/
def mergeBounds (a b : Bounds) : Bounds :=
  ⟨min a.minx b.minx, min a.miny b.miny, max a.maxx b.maxx, max a.maxy b.maxy⟩

/-- Bounds of a non-empty point sequence (head plus tail). -/
def ptsBounds (p0 : Pt) (rest : List Pt) : Bounds :=
  rest.foldl (fun b p => mergeBounds b (ptBounds p)) (ptBounds p0)

/-- `geo.bounds` of a geometry record. -/
def geoBounds : Geo → Bounds
  | .line p q => ptsBounds p [q]
  | .area p0 rest => ptsBounds p0 rest
  | .multiArea r0 rest =>
      rest.foldl (fun b r => mergeBounds b (ptsBounds r.1 r.2)) (ptsBounds r0.1 r0.2)
  | .point p => ptBounds p

/-- The `else` branch of the loop of `transform_to_lines`: any non-`LineString`
geometry is collapsed onto the midline of its bounding box, comparing
`xdiff = |bounds[0]-bounds[2]|` with `ydiff = |bounds[1]-bounds[3]|`; the flag
is `true` for the horizontal bucket. -/
def bounds_wall (geo : Geo) : Bool × Wall :=
  let b := geoBounds geo
  let xdiff := |b.minx - b.maxx|
  let ydiff := |b.miny - b.maxy|
  if xdiff > ydiff then
    let c := (b.miny + b.maxy) / 2
    (true, (b.minx, c, b.maxx, c))
  else
    let c := (b.minx + b.maxx) / 2
    (false, (c, b.miny, c, b.maxy))

/-- The body of the loop of `transform_to_lines` for one geometry: the
orientation flag (`true` = horizontal) and the emitted wall.  A `LineString`
keeps its two endpoints verbatim and compares `|x1-x2|` with `|y1-y2|`; every
other geometry goes through the bounding-box branch `bounds_wall`. -/
def classify : Geo → Bool × Wall
  | .line p q =>
      let xdiff := |p.1 - q.1|
      let ydiff := |p.2 - q.2|
      (decide (xdiff > ydiff), (p.1, p.2, q.1, q.2))
  | .area p0 rest => bounds_wall (.area p0 rest)
  | .multiArea r0 rest => bounds_wall (.multiArea r0 rest)
  | .point p => bounds_wall (.point p)

/-- `transform_to_lines`: walks the collection in order and appends each
record's wall to the horizontal or the vertical bucket. -/
def transform_to_lines : List Geo → List Wall × List Wall
  | [] => ([], [])
  | geo :: rest =>
      let r := classify geo
      let acc := transform_to_lines rest
      if r.1 then (r.2 :: acc.1, acc.2) else (acc.1, r.2 :: acc.2)

/-- `_expand_to_polygons`: iterates the rows of the dataframe (each a geometry
together with its attribute columns, here an `α`).  A `Polygon` row is appended
unchanged; a `MultiPolygon` row is appended once per constituent ring, each
copy keeping the row's attributes with the geometry replaced by that ring.
Any other row matches neither `if` and is not appended. -/
def expand_to_polygons {α : Type} : List (Geo × α) → List (Geo × α)
  | [] => []
  | (Geo.area p0 ps, a) :: rest => (Geo.area p0 ps, a) :: expand_to_polygons rest
  | (Geo.multiArea r0 rs, a) :: rest =>
      ((r0 :: rs).map fun r => (Geo.area r.1 r.2, a)) ++ expand_to_polygons rest
  | (Geo.line _ _, _) :: rest => expand_to_polygons rest
  | (Geo.point _, _) :: rest => expand_to_polygons rest

/-- Rotation of a point about `origin` by the angle whose cosine is `c` and
sine is `s` (positive angle = counter-clockwise), the planar rotation
`df.rotate(angle, origin=rotation_center)` applies to every coordinate. -/
def rotate_point (c s : ℚ) (origin p : Pt) : Pt :=
  (origin.1 + c * (p.1 - origin.1) - s * (p.2 - origin.2),
   origin.2 + s * (p.1 - origin.1) + c * (p.2 - origin.2))

/-- Translation of a point by `(xoff, yoff)`, as `data.translate` applies. -/
def translate_point (xoff yoff : ℚ) (p : Pt) : Pt := (p.1 + xoff, p.2 + yoff)

/-- Applies a point map to every coordinate of a geometry record. -/
def map_geo (f : Pt → Pt) : Geo → Geo
  | .line p q => .line (f p) (f q)
  | .area p0 rest => .area (f p0) (rest.map f)
  | .multiArea r0 rest =>
      .multiArea (f r0.1, r0.2.map f) (rest.map fun r => (f r.1, r.2.map f))
  | .point p => .point (f p)

/-- The column minima of the collection's bounds table:
`data.bounds.iloc[:, :2].min(axis=0)`, the lower-left corner of the
collection's bounding box.  On an empty collection the minima are undefined
(the library yields no number), embedded as `none`. -/
def collection_lower_left : List Geo → Option Pt
  | [] => none
  | g :: gs =>
      some (gs.foldl
        (fun ll h => (min ll.1 (geoBounds h).minx, min ll.2 (geoBounds h).miny))
        ((geoBounds g).minx, (geoBounds g).miny))

/-- `rotate_and_translate`.  The external call `df.unary_union.centroid` is
passed in as `unary_union_centroid` (the GIS library's area-weighted centroid
of the union of the geometries; it yields no point on an empty collection).
The rotation angle is represented by its cosine `c` and sine `s`.  When
`rotation_center` is `none` the centroid is used; every geometry is rotated
about the center, then `lower_left` is the supplied `tranlation` or the
lower-left corner of the rotated collection's bounds, every geometry is
translated by `(-lower_left.1, -lower_left.2)`, and the function returns the
translated data, the rotation center and `lower_left`. -/
def rotate_and_translate (unary_union_centroid : List Geo → Option Pt)
    (c s : ℚ) (df : List Geo)
    (rotation_center : Option Pt) (tranlation : Option Pt) :
    Option (List Geo × Pt × Pt) :=
  match (match rotation_center with
         | some ctr => some ctr
         | none => unary_union_centroid df) with
  | none => none
  | some center =>
      let data := df.map (map_geo (rotate_point c s center))
      match (match tranlation with
             | some t => some t
             | none => collection_lower_left data) with
      | none => none
      | some lower_left =>
          some (data.map (map_geo (translate_point (-lower_left.1) (-lower_left.2))),
                center, lower_left)

/-- A bounding box is well-formed when its minimum corner is coordinatewise at
most its maximum corner; every box `geoBounds` builds is. -/
def Bounds.WF (b : Bounds) : Prop := b.minx ≤ b.maxx ∧ b.miny ≤ b.maxy

lemma ptBounds_wf (p : Pt) : (ptBounds p).WF := ⟨le_refl _, le_refl _⟩

lemma mergeBounds_wf {a b : Bounds} (ha : a.WF) (hb : b.WF) : (mergeBounds a b).WF := by
  refine ⟨?_, ?_⟩
  · exact le_trans (le_trans (min_le_left _ _) ha.1) (le_max_left _ _)
  · exact le_trans (le_trans (min_le_right _ _) hb.2) (le_max_right _ _)

lemma foldl_wf {β : Type} (F : Bounds → β → Bounds)
    (hF : ∀ b x, b.WF → (F b x).WF) (l : List β) (b : Bounds) (hb : b.WF) :
    (l.foldl F b).WF := by
  induction l generalizing b with
  | nil => exact hb
  | cons x xs ih => exact ih _ (hF b x hb)

lemma ptsBounds_wf (p0 : Pt) (rest : List Pt) : (ptsBounds p0 rest).WF :=
  foldl_wf _ (fun _ p hb => mergeBounds_wf hb (ptBounds_wf p)) rest (ptBounds p0)
    (ptBounds_wf p0)

lemma geoBounds_wf (g : Geo) : (geoBounds g).WF := by
  cases g with
  | line p q => exact ptsBounds_wf p [q]
  | area p0 rest => exact ptsBounds_wf p0 rest
  | multiArea r0 rest =>
      exact foldl_wf _ (fun b r hb => mergeBounds_wf hb (ptsBounds_wf r.1 r.2)) rest _
        (ptsBounds_wf r0.1 r0.2)
  | point p => exact ptBounds_wf p

/-- With well-formed bounds, the absolute differences the code computes resolve
to width `maxx - minx` and height `maxy - miny`. -/
lemma bounds_wall_eq (g : Geo) :
    bounds_wall g =
      if (geoBounds g).maxx - (geoBounds g).minx > (geoBounds g).maxy - (geoBounds g).miny
      then (true, ((geoBounds g).minx, ((geoBounds g).miny + (geoBounds g).maxy) / 2,
            (geoBounds g).maxx, ((geoBounds g).miny + (geoBounds g).maxy) / 2))
      else (false, (((geoBounds g).minx + (geoBounds g).maxx) / 2, (geoBounds g).miny,
            ((geoBounds g).minx + (geoBounds g).maxx) / 2, (geoBounds g).maxy)) := by
  have h := geoBounds_wf g
  simp only [bounds_wall]
  rw [abs_sub_comm (geoBounds g).minx, abs_of_nonneg (sub_nonneg.mpr h.1),
      abs_sub_comm (geoBounds g).miny, abs_of_nonneg (sub_nonneg.mpr h.2)]

lemma transform_single (g : Geo) :
    transform_to_lines [g] =
      if (classify g).1 then ([(classify g).2], []) else ([], [(classify g).2]) := by
  simp [transform_to_lines]

lemma transform_cons (g : Geo) (rest : List Geo) :
    transform_to_lines (g :: rest) =
      if (classify g).1
      then ((classify g).2 :: (transform_to_lines rest).1, (transform_to_lines rest).2)
      else ((transform_to_lines rest).1, (classify g).2 :: (transform_to_lines rest).2) := by
  simp [transform_to_lines]

/-- C1: an Area record is classified by its bounding box `(xmin,ymin,xmax,ymax)`:
if `xmax-xmin > ymax-ymin` it is horizontal with segment `(xmin,c,xmax,c)`,
`c = (ymin+ymax)/2`, else vertical with segment `(c,ymin,c,ymax)`,
`c = (xmin+xmax)/2`; the 10×2 rectangle gives the horizontal segment
`(0,1,10,1)` and the 2×10 rectangle the vertical segment `(1,0,1,10)`. -/
theorem C1_area_bbox_classification (p0 : Pt) (rest : List Pt) (b : Bounds)
    (hb : geoBounds (Geo.area p0 rest) = b) :
    (transform_to_lines [Geo.area p0 rest] =
      if b.maxx - b.minx > b.maxy - b.miny
      then ([(b.minx, (b.miny + b.maxy) / 2, b.maxx, (b.miny + b.maxy) / 2)], [])
      else ([], [((b.minx + b.maxx) / 2, b.miny, (b.minx + b.maxx) / 2, b.maxy)]))
    ∧ transform_to_lines [Geo.area (0, 0) [(10, 0), (10, 2), (0, 2), (0, 0)]]
        = ([(0, 1, 10, 1)], [])
    ∧ transform_to_lines [Geo.area (0, 0) [(2, 0), (2, 10), (0, 10), (0, 0)]]
        = ([], [(1, 0, 1, 10)]) := by
  refine ⟨?_, ?_, ?_⟩
  · by_cases hcond : b.maxx - b.minx > b.maxy - b.miny
    · rw [if_pos hcond, transform_single]
      have hc : classify (Geo.area p0 rest)
          = (true, (b.minx, (b.miny + b.maxy) / 2, b.maxx, (b.miny + b.maxy) / 2)) := by
        simp only [classify]
        rw [bounds_wall_eq, hb, if_pos hcond]
      rw [hc]
      simp
    · rw [if_neg hcond, transform_single]
      have hc : classify (Geo.area p0 rest)
          = (false, ((b.minx + b.maxx) / 2, b.miny, (b.minx + b.maxx) / 2, b.maxy)) := by
        simp only [classify]
        rw [bounds_wall_eq, hb, if_neg hcond]
      rw [hc]
      simp
  · norm_num [transform_to_lines, classify, bounds_wall, geoBounds, ptsBounds, ptBounds,
      mergeBounds]
  · norm_num [transform_to_lines, classify, bounds_wall, geoBounds, ptsBounds, ptBounds,
      mergeBounds]

theorem C1_witness :
    geoBounds (Geo.area (0, 0) [(10, 0), (10, 2), (0, 2), (0, 0)]) = ⟨0, 0, 10, 2⟩
    ∧ transform_to_lines [Geo.area (0, 0) [(10, 0), (10, 2), (0, 2), (0, 0)]]
        = ([(0, 1, 10, 1)], []) := by
  have hb : geoBounds (Geo.area (0, 0) [(10, 0), (10, 2), (0, 2), (0, 0)]) = ⟨0, 0, 10, 2⟩ := by
    norm_num [geoBounds, ptsBounds, ptBounds, mergeBounds]
  exact ⟨hb, (C1_area_bbox_classification (0, 0) [(10, 0), (10, 2), (0, 2), (0, 0)]
    ⟨0, 0, 10, 2⟩ hb).2.1⟩

/-- C2: a Line record compares `|x1-x2|` with `|y1-y2|`, goes to the horizontal
bucket exactly when the former is larger, and its segment is the two original
endpoints verbatim; the line `(0,0)-(10,1)` is horizontal with segment
`(0,0,10,1)`. -/
theorem C2_line_verbatim_endpoints (p q : Pt) :
    (transform_to_lines [Geo.line p q] =
      if |p.1 - q.1| > |p.2 - q.2| then ([(p.1, p.2, q.1, q.2)], [])
      else ([], [(p.1, p.2, q.1, q.2)]))
    ∧ transform_to_lines [Geo.line (0, 0) (10, 1)] = ([(0, 0, 10, 1)], []) := by
  constructor
  · rw [transform_single]
    by_cases h : |p.1 - q.1| > |p.2 - q.2| <;> simp [classify, h]
  · norm_num [transform_to_lines, classify]

/-- C3: when the computed `dx` equals the computed `dy`, the record falls
through the `not greater than` branch into the vertical bucket, for a Line and
for an Area alike; the 5×5 square is vertical with segment `(5/2,0,5/2,5)`. -/
theorem C3_tie_goes_vertical (p q p0 : Pt) (rest : List Pt)
    (hline : |p.1 - q.1| = |p.2 - q.2|)
    (harea : (geoBounds (Geo.area p0 rest)).maxx - (geoBounds (Geo.area p0 rest)).minx
      = (geoBounds (Geo.area p0 rest)).maxy - (geoBounds (Geo.area p0 rest)).miny) :
    transform_to_lines [Geo.line p q] = ([], [(p.1, p.2, q.1, q.2)])
    ∧ transform_to_lines [Geo.area p0 rest]
        = ([], [(((geoBounds (Geo.area p0 rest)).minx + (geoBounds (Geo.area p0 rest)).maxx) / 2,
                 (geoBounds (Geo.area p0 rest)).miny,
                 ((geoBounds (Geo.area p0 rest)).minx + (geoBounds (Geo.area p0 rest)).maxx) / 2,
                 (geoBounds (Geo.area p0 rest)).maxy)])
    ∧ transform_to_lines [Geo.area (0, 0) [(5, 0), (5, 5), (0, 5), (0, 0)]]
        = ([], [(5 / 2, 0, 5 / 2, 5)]) := by
  refine ⟨?_, ?_, ?_⟩
  · rw [transform_single]
    simp [classify, hline]
  · rw [transform_single]
    have hc : classify (Geo.area p0 rest)
        = (false, (((geoBounds (Geo.area p0 rest)).minx + (geoBounds (Geo.area p0 rest)).maxx) / 2,
            (geoBounds (Geo.area p0 rest)).miny,
            ((geoBounds (Geo.area p0 rest)).minx + (geoBounds (Geo.area p0 rest)).maxx) / 2,
            (geoBounds (Geo.area p0 rest)).maxy)) := by
      simp only [classify]
      rw [bounds_wall_eq, if_neg (by rw [harea]; exact lt_irrefl _)]
    rw [hc]
    simp
  · norm_num [transform_to_lines, classify, bounds_wall, geoBounds, ptsBounds, ptBounds,
      mergeBounds]

theorem C3_witness :
    transform_to_lines [Geo.line (0, 0) (3, 3)] = ([], [(0, 0, 3, 3)]) := by
  have h := C3_tie_goes_vertical (0, 0) (3, 3) (0, 0) []
    (by norm_num) (by norm_num [geoBounds, ptsBounds, ptBounds])
  exact h.1

/-- C4: `transform_to_lines` emits exactly one wall per input record — the two
bucket lengths sum to the input length — and each bucket lists, in input
order, the walls of the records classified into it. -/
theorem C4_one_wall_per_record_order_preserving (data : List Geo) :
    (transform_to_lines data).1.length + (transform_to_lines data).2.length = data.length
    ∧ (transform_to_lines data).1
        = ((data.filter fun g => (classify g).1).map fun g => (classify g).2)
    ∧ (transform_to_lines data).2
        = ((data.filter fun g => !(classify g).1).map fun g => (classify g).2) := by
  induction data with
  | nil => simp [transform_to_lines]
  | cons g rest ih =>
      rw [transform_cons]
      cases hc : (classify g).1 with
      | false =>
          simp only [hc, if_neg Bool.false_ne_true, List.filter_cons, hc]
          refine ⟨?_, ?_, ?_⟩
          · simp [ih.1]
            omega
          · simpa using ih.2.1
          · simp [ih.2.2]
      | true =>
          simp only [hc, if_pos rfl, List.filter_cons, hc]
          refine ⟨?_, ?_, ?_⟩
          · simp [ih.1]
            omega
          · simp [ih.2.1]
          · simpa using ih.2.2

/-- C5 counterexample: a collection holding one Line record comes out of
`expand_to_polygons` empty — the Line row matches neither the Polygon nor the
MultiPolygon branch and is dropped, so the output cardinality falls below the
input cardinality. -/
theorem C5_counterexample_line_dropped :
    expand_to_polygons [(Geo.line (0, 0) (1, 1), (0 : ℕ))] = ([] : List (Geo × ℕ))
    ∧ ¬ 1 ≤ (expand_to_polygons [(Geo.line (0, 0) (1, 1), (0 : ℕ))]).length := by
  constructor
  · simp [expand_to_polygons]
  · simp [expand_to_polygons]

/-- C5 amended: `expand_to_polygons` keeps only area geometry — every output
record is a simple Area, and a Line record is dropped (the output for a
collection starting with a Line is the output for the remaining rows), so the
output cardinality can decrease. -/
theorem C5_amended_only_areas_survive {α : Type} (df rest : List (Geo × α))
    (p q : Pt) (a : α) :
    (∀ r ∈ expand_to_polygons df, ∃ p0 ps b, r = (Geo.area p0 ps, b))
    ∧ expand_to_polygons ((Geo.line p q, a) :: rest) = expand_to_polygons rest := by
  constructor
  · induction df with
    | nil => simp [expand_to_polygons]
    | cons row rows ih =>
        obtain ⟨g, b⟩ := row
        cases g with
        | line p q => simpa [expand_to_polygons] using ih
        | area p0 ps =>
            intro r hr
            simp only [expand_to_polygons, List.mem_cons] at hr
            rcases hr with h | h
            · exact ⟨p0, ps, b, h⟩
            · exact ih r h
        | multiArea r0 rs =>
            intro r hr
            simp only [expand_to_polygons, List.mem_append, List.mem_map,
              List.mem_cons] at hr
            rcases hr with ⟨ring, _, h⟩ | h
            · exact ⟨ring.1, ring.2, b, h.symm⟩
            · exact ih r h
        | point p => simpa [expand_to_polygons] using ih
  · simp [expand_to_polygons]

theorem C5_amended_witness :
    (∀ r ∈ expand_to_polygons [(Geo.point (1, 1), (5 : ℕ))],
      ∃ p0 ps b, r = (Geo.area p0 ps, b))
    ∧ expand_to_polygons [(Geo.line (0, 0) (1, 1), (5 : ℕ))]
        = expand_to_polygons ([] : List (Geo × ℕ)) :=
  C5_amended_only_areas_survive [(Geo.point (1, 1), (5 : ℕ))] [] (0, 0) (1, 1) 5

/-- C7 counterexample: a Point record — neither Line nor Area — does not make
the pipeline fail: `transform_to_lines` handles it through the bounding-box
branch and classifies it Vertical with the degenerate segment `(x, y, x, y)`. -/
theorem C7_counterexample_point_classified :
    transform_to_lines [Geo.point (2, 3)] = ([], [(2, 3, 2, 3)]) := by
  norm_num [transform_to_lines, classify, bounds_wall, geoBounds, ptBounds]

/-- C7 amended: a geometry record that is neither Line nor Area is not
rejected; `transform_to_lines` sends it through the bounding-box branch — a
Point `p` lands in the vertical bucket with segment `(p.1, p.2, p.1, p.2)`,
in front of whatever the remaining records produce. -/
theorem C7_amended_point_goes_vertical (p : Pt) (rest : List Geo) :
    transform_to_lines (Geo.point p :: rest)
      = ((transform_to_lines rest).1,
         (p.1, p.2, p.1, p.2) :: (transform_to_lines rest).2) := by
  rw [transform_cons]
  have hc : classify (Geo.point p) = (false, (p.1, p.2, p.1, p.2)) := by
    simp only [classify]
    rw [bounds_wall_eq]
    have hb : geoBounds (Geo.point p) = ⟨p.1, p.2, p.1, p.2⟩ := rfl
    rw [hb]
    simp [add_self_div_two]
  rw [hc]
  simp

/-- C9: a MultiPolygon row with `1 + |rs|` rings expands to exactly one simple
Area record per ring, each copying the row's attribute, in front of the
expansion of the remaining rows, so the count grows by the number of rings;
a compound area of 3 parts yields exactly its 3 simple Area records. -/
theorem C9_compound_expansion {α : Type} (r0 : Pt × List Pt)
    (rs : List (Pt × List Pt)) (a : α) (rest : List (Geo × α)) :
    expand_to_polygons ((Geo.multiArea r0 rs, a) :: rest)
      = ((r0 :: rs).map fun r => (Geo.area r.1 r.2, a)) ++ expand_to_polygons rest
    ∧ ((r0 :: rs).map fun r => (Geo.area r.1 r.2, a)).length = rs.length + 1
    ∧ (expand_to_polygons ((Geo.multiArea r0 rs, a) :: rest)).length
        = (rs.length + 1) + (expand_to_polygons rest).length
    ∧ expand_to_polygons [(Geo.multiArea ((0, 0), []) [((1, 1), []), ((2, 2), [])], (7 : ℕ))]
        = [(Geo.area (0, 0) [], 7), (Geo.area (1, 1) [], 7), (Geo.area (2, 2) [], 7)] := by
  refine ⟨?_, ?_, ?_, ?_⟩
  · simp [expand_to_polygons]
  · simp
  · simp [expand_to_polygons]
    omega
  · simp [expand_to_polygons]

/-- C6: with neither rotation center nor translation supplied, an empty
collection makes `rotate_and_translate` fail instead of returning a result:
the library's `unary_union.centroid` yields no point for it, so the default
rotation center is undefined. -/
theorem C6_empty_input_fails (uc : List Geo → Option Pt) (c s : ℚ)
    (h : uc [] = none) :
    rotate_and_translate uc c s [] none none = none := by
  simp [rotate_and_translate, h]

theorem C6_witness :
    rotate_and_translate (fun _ => none) 1 0 [] none none = none :=
  C6_empty_input_fails (fun _ => none) 1 0 rfl

/-- C8 counterexample: rotating `[(3,4)]` by the identity rotation about
`(1,1)` with no fixed translation translates the point to the origin, but the
third component of the result is `(3,4)` — the minimum corner of the rotated
bounding box — and not its negation `(-3,-4)`, which the claim says is
returned as the effective translation offset. -/
theorem C8_counterexample_returns_min_corner :
    rotate_and_translate (fun _ => none) 1 0 [Geo.point (3, 4)] (some (1, 1)) none
      = some ([Geo.point (0, 0)], ((1 : ℚ), (1 : ℚ)), ((3 : ℚ), (4 : ℚ)))
    ∧ ((3 : ℚ), (4 : ℚ)) ≠ (-(3 : ℚ), -(4 : ℚ)) := by
  constructor
  · norm_num [rotate_and_translate, map_geo, rotate_point, translate_point,
      collection_lower_left, geoBounds, ptBounds]
  · intro h
    have := congrArg Prod.fst h
    norm_num at this

/-- Shift of a bounding box by a translation vector. -/
def shiftB (dx dy : ℚ) (b : Bounds) : Bounds :=
  ⟨b.minx + dx, b.miny + dy, b.maxx + dx, b.maxy + dy⟩

lemma min_shift (a b d : ℚ) : min (a + d) (b + d) = min a b + d := by
  rcases le_total a b with h | h
  · rw [min_eq_left h, min_eq_left (by linarith)]
  · rw [min_eq_right h, min_eq_right (by linarith)]

lemma max_shift (a b d : ℚ) : max (a + d) (b + d) = max a b + d := by
  rcases le_total a b with h | h
  · rw [max_eq_right h, max_eq_right (by linarith)]
  · rw [max_eq_left h, max_eq_left (by linarith)]

lemma ptBounds_translate (dx dy : ℚ) (p : Pt) :
    ptBounds (translate_point dx dy p) = shiftB dx dy (ptBounds p) := rfl

lemma mergeBounds_shift (dx dy : ℚ) (a b : Bounds) :
    mergeBounds (shiftB dx dy a) (shiftB dx dy b) = shiftB dx dy (mergeBounds a b) := by
  simp only [mergeBounds, shiftB, min_shift, max_shift]

lemma foldl_pts_shift (dx dy : ℚ) (l : List Pt) (init : Bounds) :
    List.foldl (fun b p => mergeBounds b (ptBounds p)) (shiftB dx dy init)
        (l.map (translate_point dx dy))
      = shiftB dx dy (List.foldl (fun b p => mergeBounds b (ptBounds p)) init l) := by
  induction l generalizing init with
  | nil => rfl
  | cons p ps ih =>
      simp only [List.map_cons, List.foldl_cons]
      rw [ptBounds_translate, mergeBounds_shift]
      exact ih _

lemma ptsBounds_translate (dx dy : ℚ) (p0 : Pt) (rest : List Pt) :
    ptsBounds (translate_point dx dy p0) (rest.map (translate_point dx dy))
      = shiftB dx dy (ptsBounds p0 rest) := by
  unfold ptsBounds
  rw [ptBounds_translate]
  exact foldl_pts_shift dx dy rest (ptBounds p0)

lemma foldl_rings_shift (dx dy : ℚ) (l : List (Pt × List Pt)) (init : Bounds) :
    List.foldl (fun b r => mergeBounds b (ptsBounds r.1 r.2)) (shiftB dx dy init)
        (l.map fun r => (translate_point dx dy r.1, r.2.map (translate_point dx dy)))
      = shiftB dx dy (List.foldl (fun b r => mergeBounds b (ptsBounds r.1 r.2)) init l) := by
  induction l generalizing init with
  | nil => rfl
  | cons r rs ih =>
      simp only [List.map_cons, List.foldl_cons]
      rw [ptsBounds_translate, mergeBounds_shift]
      exact ih _

lemma geoBounds_translate (dx dy : ℚ) (g : Geo) :
    geoBounds (map_geo (translate_point dx dy) g) = shiftB dx dy (geoBounds g) := by
  cases g with
  | line p q =>
      show ptsBounds (translate_point dx dy p) ([q].map (translate_point dx dy))
        = shiftB dx dy (ptsBounds p [q])
      exact ptsBounds_translate dx dy p [q]
  | area p0 rest => exact ptsBounds_translate dx dy p0 rest
  | multiArea r0 rest =>
      show List.foldl (fun b r => mergeBounds b (ptsBounds r.1 r.2))
          (ptsBounds (translate_point dx dy r0.1) (r0.2.map (translate_point dx dy)))
          (rest.map fun r => (translate_point dx dy r.1, r.2.map (translate_point dx dy)))
        = shiftB dx dy (geoBounds (Geo.multiArea r0 rest))
      rw [ptsBounds_translate]
      exact foldl_rings_shift dx dy rest (ptsBounds r0.1 r0.2)
  | point p => exact ptBounds_translate dx dy p

lemma foldl_lower_left_shift (dx dy : ℚ) (gs : List Geo) (a b : ℚ) :
    List.foldl (fun ll h => (min ll.1 (geoBounds h).minx, min ll.2 (geoBounds h).miny))
        (a + dx, b + dy) (gs.map (map_geo (translate_point dx dy)))
      = ((List.foldl (fun ll h => (min ll.1 (geoBounds h).minx, min ll.2 (geoBounds h).miny))
            (a, b) gs).1 + dx,
         (List.foldl (fun ll h => (min ll.1 (geoBounds h).minx, min ll.2 (geoBounds h).miny))
            (a, b) gs).2 + dy) := by
  induction gs generalizing a b with
  | nil => rfl
  | cons g gs ih =>
      simp only [List.map_cons, List.foldl_cons]
      rw [geoBounds_translate]
      simp only [shiftB, min_shift]
      exact ih _ _

/-- Translating every geometry shifts the collection's lower-left corner by the
same vector. -/
lemma collection_lower_left_translate (dx dy : ℚ) (data : List Geo) :
    collection_lower_left (data.map (map_geo (translate_point dx dy)))
      = (collection_lower_left data).map fun p => (p.1 + dx, p.2 + dy) := by
  cases data with
  | nil => rfl
  | cons g gs =>
      simp only [collection_lower_left, List.map_cons, Option.map_some]
      rw [geoBounds_translate]
      simp only [shiftB]
      rw [foldl_lower_left_shift dx dy gs (geoBounds g).minx (geoBounds g).miny]
      simp [Option.map_some]

/-- C8 amended: with no fixed translation supplied, `rotate_and_translate`
translates the rotated collection by the negation of the minimum corner `ll`
of its bounding box — so the translated collection's minimum corner is the
origin — and returns, besides the data, the rotation center and the minimum
corner `ll` itself (the value re-passable as the `tranlation` parameter), not
the negated offset. -/
theorem C8_amended_offset_and_return (uc : List Geo → Option Pt) (c s : ℚ)
    (df : List Geo) (ctr ll : Pt)
    (hll : collection_lower_left (df.map (map_geo (rotate_point c s ctr))) = some ll) :
    rotate_and_translate uc c s df (some ctr) none
      = some ((df.map (map_geo (rotate_point c s ctr))).map
                (map_geo (translate_point (-ll.1) (-ll.2))), ctr, ll)
    ∧ collection_lower_left
        ((df.map (map_geo (rotate_point c s ctr))).map
          (map_geo (translate_point (-ll.1) (-ll.2)))) = some (0, 0) := by
  constructor
  · simp [rotate_and_translate, hll]
  · rw [collection_lower_left_translate, hll]
    simp

theorem C8_amended_witness :
    rotate_and_translate (fun _ => none) 1 0 [Geo.point (3, 4)] (some (1, 1)) none
      = some (([Geo.point (3, 4)].map (map_geo (rotate_point 1 0 (1, 1)))).map
                (map_geo (translate_point (-(3 : ℚ)) (-(4 : ℚ)))), (1, 1), (3, 4))
    ∧ collection_lower_left
        (([Geo.point (3, 4)].map (map_geo (rotate_point 1 0 (1, 1)))).map
          (map_geo (translate_point (-(3 : ℚ)) (-(4 : ℚ))))) = some (0, 0) :=
  C8_amended_offset_and_return (fun _ => none) 1 0 [Geo.point (3, 4)] (1, 1) (3, 4)
    (by norm_num [collection_lower_left, map_geo, rotate_point, geoBounds, ptBounds])

/-- The wall emitted by the bounding-box branch is axis-aligned with ordered
endpoints: horizontal means `y1 = y2` and `x1 ≤ x2`, vertical means `x1 = x2`
and `y1 ≤ y2`. -/
lemma bounds_wall_axis (g : Geo) :
    ((bounds_wall g).1 = true →
      (bounds_wall g).2.2.1 = (bounds_wall g).2.2.2.2
      ∧ (bounds_wall g).2.1 ≤ (bounds_wall g).2.2.2.1)
    ∧ ((bounds_wall g).1 = false →
      (bounds_wall g).2.1 = (bounds_wall g).2.2.2.1
      ∧ (bounds_wall g).2.2.1 ≤ (bounds_wall g).2.2.2.2) := by
  have h := geoBounds_wf g
  rw [bounds_wall_eq]
  by_cases hcond : (geoBounds g).maxx - (geoBounds g).minx
      > (geoBounds g).maxy - (geoBounds g).miny
  · rw [if_pos hcond]
    exact ⟨fun _ => ⟨rfl, h.1⟩, fun hf => by simp at hf⟩
  · rw [if_neg hcond]
    exact ⟨fun ht => by simp at ht, fun _ => ⟨rfl, h.2⟩⟩

/-- C10: every wall derived from a non-Line geometry is exactly axis-aligned
with endpoints ordered from minimum to maximum coordinate: if it goes to the
horizontal bucket then `y1 = y2` and `x1 ≤ x2`, and if it goes to the vertical
bucket then `x1 = x2` and `y1 ≤ y2`. -/
theorem C10_non_line_walls_axis_aligned (g : Geo) (hg : ∀ p q, g ≠ Geo.line p q) :
    ((classify g).1 = true →
      (classify g).2.2.1 = (classify g).2.2.2.2
      ∧ (classify g).2.1 ≤ (classify g).2.2.2.1)
    ∧ ((classify g).1 = false →
      (classify g).2.1 = (classify g).2.2.2.1
      ∧ (classify g).2.2.1 ≤ (classify g).2.2.2.2) := by
  cases g with
  | line p q => exact absurd rfl (hg p q)
  | area p0 rest =>
      have hc : classify (Geo.area p0 rest) = bounds_wall (Geo.area p0 rest) := rfl
      rw [hc]
      exact bounds_wall_axis _
  | multiArea r0 rest =>
      have hc : classify (Geo.multiArea r0 rest) = bounds_wall (Geo.multiArea r0 rest) := rfl
      rw [hc]
      exact bounds_wall_axis _
  | point p =>
      have hc : classify (Geo.point p) = bounds_wall (Geo.point p) := rfl
      rw [hc]
      exact bounds_wall_axis _

theorem C10_witness :
    ((classify (Geo.area (0, 0) [(10, 0), (10, 2), (0, 2), (0, 0)])).1 = true →
      (classify (Geo.area (0, 0) [(10, 0), (10, 2), (0, 2), (0, 0)])).2.2.1
        = (classify (Geo.area (0, 0) [(10, 0), (10, 2), (0, 2), (0, 0)])).2.2.2.2
      ∧ (classify (Geo.area (0, 0) [(10, 0), (10, 2), (0, 2), (0, 0)])).2.1
        ≤ (classify (Geo.area (0, 0) [(10, 0), (10, 2), (0, 2), (0, 0)])).2.2.2.1)
    ∧ ((classify (Geo.area (0, 0) [(10, 0), (10, 2), (0, 2), (0, 0)])).1 = false →
      (classify (Geo.area (0, 0) [(10, 0), (10, 2), (0, 2), (0, 0)])).2.1
        = (classify (Geo.area (0, 0) [(10, 0), (10, 2), (0, 2), (0, 0)])).2.2.2.1
      ∧ (classify (Geo.area (0, 0) [(10, 0), (10, 2), (0, 2), (0, 0)])).2.2.1
        ≤ (classify (Geo.area (0, 0) [(10, 0), (10, 2), (0, 2), (0, 0)])).2.2.2.2) :=
  C10_non_line_walls_axis_aligned (Geo.area (0, 0) [(10, 0), (10, 2), (0, 2), (0, 0)])
    (fun _ _ h => Geo.noConfusion h)

end Geo2Wall
